import Mathlib

/-!
Verification development for the ESG indicator dashboard (`app.js`).

The JavaScript source is shallowly embedded: records are a Lean structure
whose optional JS fields become `Option` fields; JS string operations
(`toLowerCase`, `trim`, `includes`, `substring`, `replace`, `join`) are
modelled by structural functions over `List Char`; JS truthiness of a
string-or-undefined value is `jsTruthy`.  Each dashboard function that the
claims mention (`applyFilters`, `renderStats`'s AI count, `createCard`'s
score badge and face class, `renderTable`'s face label, `openModal`'s face
long-label and AI section, `renderKanban`'s grouping and sort, `loadData`'s
indicator filter, `exportCSV`) is translated into a pure Lean function of
the same name.
-/

namespace EsgDashboard

/-! ### JS string primitives, modelled over `List Char` -/

/-- Lower-case one character (ASCII range, as relevant to the data). Models
`String.prototype.toLowerCase` per character. -/
def lowerChar (c : Char) : Char :=
  if 'A' ≤ c && c ≤ 'Z' then Char.ofNat (c.toNat + 32) else c

/-- Models `s.toLowerCase()`. -/
def jsToLower (s : String) : String :=
  String.mk (s.data.map lowerChar)

/-- Whitespace characters recognised by `String.prototype.trim` (the ones
that can occur in the data). -/
def isWsChar (c : Char) : Bool :=
  c == ' ' || c == '\t' || c == '\n' || c == '\r'

/-- Models `s.trim()`. -/
def jsTrim (s : String) : String :=
  String.mk (((s.data.dropWhile isWsChar).reverse.dropWhile isWsChar).reverse)

/-- Models `s.includes(pat)`: `pat` occurs contiguously inside `s`. -/
def strIncludes (s pat : String) : Bool :=
  decide (pat.data <:+: s.data)

/-- Models `s.substring(0, n)`. -/
def strTake (s : String) (n : Nat) : String :=
  String.mk (s.data.take n)

/-- Models `arr.join(sep)`. -/
def joinWith (sep : String) : List String → String
  | [] => ""
  | [x] => x
  | x :: y :: rest => x ++ sep ++ joinWith sep (y :: rest)

/-- JS truthiness of a string-valued field: present and non-empty. -/
def jsTruthy : Option String → Bool
  | none => false
  | some s => !(s == "")

/-- Models `v || dflt` for a string-valued field. -/
def jsOrD (v : Option String) (dflt : String) : String :=
  match v with
  | none => dflt
  | some s => if s == "" then dflt else s

/-! ### Data model (`Record Model`) -/

/-- The optional `ai_suggestion` sub-structure attached to a record.
`error` and `parse_error` are `true` exactly when the JS field is present
and truthy. String fields that may be absent are `Option String`. The
`具體行動與揭露清單` field may hold either a plain string or an array of
strings in the data, hence `Option (String ⊕ List String)`. -/
structure AISuggestion where
  error : Bool
  parse_error : Bool
  raw_response : Option String
  corePlain : Option String
  coreAlt : Option String
  gapDiag : Option String
  gapAlt : Option String
  actions : Option (String ⊕ List String)
  officialRefs : Option String
  assign : Option String
deriving DecidableEq

/-- One indicator record.  Field correspondence with the JS keys:
`id` = `編號`, `face` = `構面`, `statusTag` = `狀態標記`,
`dept` = `114_相關負責部門`, `scoreVal` = `114_得分數值`,
`scoreText` = `114_自評得分`, `title` = `評鑑指標`,
`description` = `指標說明`, `evalNote` = `114_自評來源及說明`,
`qtype` = `題型`, `ai` = `ai_suggestion`. -/
structure Record where
  id : Option String
  face : Option String
  statusTag : Option String
  dept : Option String
  scoreVal : Option Int
  scoreText : Option String
  title : Option String
  description : Option String
  evalNote : Option String
  qtype : Option String
  ai : Option AISuggestion
deriving DecidableEq

/-- A record with every field absent; concrete test records below override
just the fields they need. -/
def emptyRecord : Record :=
  ⟨none, none, none, none, none, none, none, none, none, none, none⟩

/-! ### Dataset Loader (`loadData`, line 36) -/

/-- Models the regex test `/^[ESG]-\d+$/.test(s)`. -/
def isIndicatorCode (s : String) : Bool :=
  match s.data with
  | c :: '-' :: rest =>
      (c == 'E' || c == 'S' || c == 'G') && !rest.isEmpty
        && rest.all (fun d => d.isDigit)
  | _ => false

/-- Models `allData.filter(d => d['編號'] && /^[ESG]-\d+$/.test(d['編號']))`. -/
def loadData (records : List Record) : List Record :=
  records.filter (fun d =>
    match d.id with
    | none => false
    | some s => !(s == "") && isIndicatorCode s)

/-- Claim-side restatement of the indicator code pattern: one letter from
the closed set E, S, G, then a hyphen, then one or more digits. -/
def claimCodePattern (s : String) : Bool :=
  match s.data with
  | c :: h :: rest =>
      (c == 'E' || c == 'S' || c == 'G') && h == '-'
        && rest.length ≥ 1 && rest.all (fun d => d.isDigit)
  | _ => false

/-- Claim-side load predicate: `id` is present and matches the pattern. -/
def claimIdOk (d : Record) : Bool :=
  (d.id).isSome && claimCodePattern ((d.id).getD "")

/-! ### Filter Engine (`applyFilters`, lines 64–87) -/

/-- Keep the truthy entries of a list of optional strings; models
`[...].filter(Boolean)`. -/
def truthyList : List (Option String) → List String
  | [] => []
  | none :: rest => truthyList rest
  | some s :: rest => if s == "" then truthyList rest else s :: truthyList rest

/-- The search haystack of a record (lines 75–78): the truthy entries of
`[編號, 評鑑指標, 指標說明, 114_自評來源及說明, 114_相關負責部門]`,
joined by a space, lower-cased. -/
def haystack (d : Record) : String :=
  jsToLower (joinWith " "
    (truthyList [d.id, d.title, d.description, d.evalNote, d.dept]))

/-- The per-record filter predicate of `applyFilters` (lines 70–82), with
`search` already lower-cased and trimmed by the caller. -/
def recordMatches (face status dept search : String) (d : Record) : Bool :=
  if !(face == "") && !(d.face == some face) then false
  else if !(status == "") && !(d.statusTag == some status) then false
  else if !(dept == "") && !(d.dept == some dept) then false
  else if !(search == "") then
    if !(strIncludes (haystack d) search) then false else true
  else true

/-- Models `applyFilters`: the search input is lower-cased then trimmed
(line 68), and the data is filtered by the conjunctive predicate. -/
def applyFilters (allData : List Record)
    (faceV statusV deptV searchInput : String) : List Record :=
  allData.filter (recordMatches faceV statusV deptV (jsTrim (jsToLower searchInput)))

/-- Claim-side matcher, as the claim states it: conjunctive exact equality
with empty criteria as no-ops, and the lower-cased search text (not trimmed)
as a substring of the haystack. -/
def claimMatches (face status dept searchText : String) (d : Record) : Bool :=
  (face == "" || d.face == some face) &&
  ((status == "" || d.statusTag == some status) &&
  ((dept == "" || d.dept == some dept) &&
  (searchText == "" || strIncludes (haystack d) (jsToLower searchText))))

/-- Spec-side matcher with the amendment: the search text is lower-cased
and whitespace-trimmed before the non-emptiness test and substring test. -/
def specMatches (face status dept searchInput : String) (d : Record) : Bool :=
  (face == "" || d.face == some face) &&
  ((status == "" || d.statusTag == some status) &&
  ((dept == "" || d.dept == some dept) &&
  (jsTrim (jsToLower searchInput) == ""
    || strIncludes (haystack d) (jsTrim (jsToLower searchInput)))))

/-! ### Stats bar (`renderStats`, lines 89–93) -/

/-- The predicate behind `renderStats`' AI count (line 93):
`d['ai_suggestion'] && !d['ai_suggestion'].error`.  Note: no
`parse_error` check here, unlike the card's `hasAI`. -/
def statsAIPred (d : Record) : Bool :=
  match d.ai with
  | none => false
  | some a => !a.error

/-- Models `aiCount` of `renderStats`. -/
def aiCount (l : List Record) : Nat :=
  (l.filter statsAIPred).length

/-! ### Summary projection (`createCard`, lines 213–248) -/

/-- Face style class of a card (lines 219–220):
`face === 'E' ? 'env' : face === 'S' ? 'soc' : 'gov'` after `|| ''`. -/
def faceClass (d : Record) : String :=
  let face := (d.face).getD ""
  if face == "E" then "env" else if face == "S" then "soc" else "gov"

/-- The card's AI-availability flag (line 224):
`item['ai_suggestion'] && !…error && !…parse_error`. -/
def hasAI (d : Record) : Bool :=
  match d.ai with
  | none => false
  | some a => !a.error && !a.parse_error

/-- The score badge of a summary card: style class and displayed text. -/
structure CardScore where
  scoreClass : String
  scoreDisplay : String
deriving DecidableEq

/-- Models lines 221–230 and 242 of `createCard`: the `na`/`--` defaults,
the `scoreVal === 1` / `scoreVal === 0` / truthy `scoreText` chain, and the
final display override `isNew ? '(新增)' : scoreDisplay`.  The style class
is whatever the chain computed, also for New records. -/
def cardScore (item : Record) : CardScore :=
  let isNew := item.statusTag == some "New_2026"
  let scoreText := jsOrD item.scoreText ""
  let base : CardScore :=
    if item.scoreVal == some 1 then ⟨"pass", "1分"⟩
    else if item.scoreVal == some 0 then ⟨"fail", "0分"⟩
    else if !(scoreText == "") then ⟨"pass", strTake scoreText 6⟩
    else ⟨"na", "--"⟩
  ⟨base.scoreClass, if isNew then "(新增)" else base.scoreDisplay⟩

/-! ### Table projection (`renderTable`, lines 251–282) -/

/-- Face label of a table row (lines 266–267): `E`/`S`/`G` map to the
long labels, anything else renders the raw value (empty when absent). -/
def faceLabel (d : Record) : String :=
  let face := (d.face).getD ""
  if face == "E" then "環境"
  else if face == "S" then "社會"
  else if face == "G" then "治理"
  else face

/-! ### Detail projection (`openModal`, lines 285–425) -/

/-- Face long-label in the modal info card (line 312): strict comparison
against `'E'` and `'S'`, everything else gets the governance label. -/
def faceLong (d : Record) : String :=
  if d.face == some "E" then "環境面 (E)"
  else if d.face == some "S" then "社會面 (S)"
  else "公司治理面 (G)"

/-- Rendering of the `具體行動與揭露清單` sub-item (lines 390–392):
a bulleted list when the value is an array, plain text otherwise. -/
inductive ActionsView where
  | bullets : List String → ActionsView
  | text : String → ActionsView
deriving DecidableEq

/-- The five structured AI sub-items of the modal (lines 379–402). -/
structure AIStructuredView where
  core : String
  gap : String
  actions : ActionsView
  officialRefs : String
  assign : String
deriving DecidableEq

/-- The AI part of the modal body: one of three shapes. -/
inductive AIView where
  | structured : AIStructuredView → AIView
  | raw : String → AIView
  | placeholder : AIView
deriving DecidableEq

/-- The structured branch's content (lines 379–402), with the `||`
fallbacks: `核心要求白話文 || 核心要求 || 'N/A'`,
`差異分析或現況診斷 || 差異分析 || 'N/A'`, the array/plain-text split for
the actions list, and `|| 'N/A'` for the last two sub-items. -/
def structuredView (a : AISuggestion) : AIStructuredView :=
  { core := jsOrD a.corePlain (jsOrD a.coreAlt "N/A")
    gap := jsOrD a.gapDiag (jsOrD a.gapAlt "N/A")
    actions :=
      match a.actions with
      | some (Sum.inr xs) => ActionsView.bullets xs
      | some (Sum.inl s) => ActionsView.text (if s == "" then "N/A" else s)
      | none => ActionsView.text "N/A"
    officialRefs := jsOrD a.officialRefs "N/A"
    assign := jsOrD a.assign "N/A" }

/-- Stand-in for `JSON.stringify(ai, null, 2)` on the raw branch when no
raw text exists (line 406); no claim depends on its exact output, only on
when it is used. -/
def serializeAI (a : AISuggestion) : String :=
  joinWith ", " ["error: " ++ (if a.error then "true" else "false"),
                 "parse_error: " ++ (if a.parse_error then "true" else "false")]

/-- The modal's three-way AI branch (lines 374–420):
structured when `ai && !ai.error && !ai.parse_error`; else raw when
`ai && (ai.raw_response || ai.parse_error)`, showing
`ai.raw_response || JSON.stringify(ai, null, 2)`; else placeholder. -/
def aiSection (ai? : Option AISuggestion) : AIView :=
  match ai? with
  | none => AIView.placeholder
  | some a =>
      if !a.error && !a.parse_error then
        AIView.structured (structuredView a)
      else if jsTruthy a.raw_response || a.parse_error then
        AIView.raw (jsOrD a.raw_response (serializeAI a))
      else
        AIView.placeholder

/-! ### Grouping & Sort Engine (`renderKanban`, lines 147–173) -/

/-- The unassigned sentinel bucket name. -/
def unassignedKey : String := "待分配"

/-- Grouping key of a record (line 156): `d['114_相關負責部門'] || '待分配'`. -/
def deptKey (d : Record) : String :=
  jsOrD d.dept unassignedKey

/-- One step of building the `Map`'s key list in insertion order. -/
def insertKey (ks : List String) (k : String) : List String :=
  if ks.contains k then ks else ks ++ [k]

/-- The group keys in `Map` insertion order (first occurrence wins),
as produced by lines 152–159. -/
def groupKeys (l : List Record) : List String :=
  l.foldl (fun ks d => insertKey ks (deptKey d)) []

/-- The member list of one group: the records pushed under key `k`
(lines 155–158), in the filtered set's relative order. -/
def groupItems (l : List Record) (k : String) : List Record :=
  l.filter (fun d => deptKey d == k)

/-- The sort's boolean order: `a` may come before `b`.  This is the
comparator of lines 162–166 (`待分配` compares after everything, otherwise
locale comparison) recast as a `le` relation; the locale comparison
`a.localeCompare(b, 'zh-TW')` is abstracted as the parameter `baseLe`. -/
def deptLe (baseLe : String → String → Bool) (a b : String) : Bool :=
  if b == unassignedKey then true
  else if a == unassignedKey then false
  else baseLe a b

/-- The ordered group-key list of the board (line 162): the key list
sorted by the comparator.  `Array.prototype.sort` is required to be a
stable sort consistent with the comparator, modelled by `List.mergeSort`. -/
def sortedKeys (baseLe : String → String → Bool) (l : List Record) : List String :=
  (groupKeys l).mergeSort (deptLe baseLe)

/-! ### Export Utility (`exportCSV`, lines 433–447) -/

/-- The fixed 8-column header list (lines 434–435). -/
def csvHeaders : List String :=
  ["編號", "狀態標記", "構面", "評鑑指標", "題型",
   "114_自評得分", "114_相關負責部門", "114_自評來源及說明"]

/-- Field lookup `d[h]` for the header names. -/
def csvFieldValue (d : Record) (h : String) : Option String :=
  if h == "編號" then d.id
  else if h == "狀態標記" then d.statusTag
  else if h == "構面" then d.face
  else if h == "評鑑指標" then d.title
  else if h == "題型" then d.qtype
  else if h == "114_自評得分" then d.scoreText
  else if h == "114_相關負責部門" then d.dept
  else if h == "114_自評來源及說明" then d.evalNote
  else none

/-- Models `.replace(/"/g, '""')`: double every quote character. -/
def doubleQuotes : List Char → List Char
  | [] => []
  | c :: cs => if c = '"' then '"' :: '"' :: doubleQuotes cs else c :: doubleQuotes cs

/-- Models the subsequent `.replace(/\n/g, ' ')`: newline to space. -/
def nlToSpace : List Char → List Char
  | [] => []
  | c :: cs => (if c = '\n' then ' ' else c) :: nlToSpace cs

/-- Cell escaping of line 443: quotes doubled, then newlines to spaces. -/
def csvEscape (s : String) : String :=
  String.mk (nlToSpace (doubleQuotes s.data))

/-- One CSV cell (lines 442–444): `d[h] || ''`, escaped, quote-wrapped. -/
def csvCell (v : Option String) : String :=
  "\"" ++ csvEscape (jsOrD v "") ++ "\""

/-- One CSV data row (lines 441–446): the 8 cells joined by commas. -/
def csvRow (d : Record) : String :=
  joinWith "," (csvHeaders.map (fun h => csvCell (csvFieldValue d h)))

/-- Models `exportCSV`'s string building (lines 437–447): BOM, header row
with a newline, then each data row appended with a newline. -/
def exportCSV (l : List Record) : String :=
  l.foldl (fun csv d => csv ++ csvRow d ++ "\n")
    ("\uFEFF" ++ joinWith "," csvHeaders ++ "\n")

/-! ### Concrete records used by counterexamples and witnesses -/

/-- A record carrying only the id `E-1`. -/
def rE1 : Record := { emptyRecord with id := some "E-1" }

/-- An `ai_suggestion` with only a raw response and no error markers. -/
def aiRawOnly : AISuggestion :=
  ⟨false, false, some "xyz", none, none, none, none, none, none, none⟩

/-- An `ai_suggestion` with a parse-error marker and raw text. -/
def aiPE : AISuggestion :=
  ⟨false, true, some "xyz", none, none, none, none, none, none, none⟩

/-- A record whose `ai_suggestion` is `\x7bparse_error: true\x7d`. -/
def rParseErr : Record :=
  { emptyRecord with
      ai := some ⟨false, true, none, none, none, none, none, none, none, none⟩ }

/-- A record assigned to the `財務` department. -/
def rFin : Record := { emptyRecord with dept := some "財務" }

/-- A New record with a numeric score of 0. -/
def rNewZero : Record :=
  { emptyRecord with statusTag := some "New_2026", scoreVal := some 0 }

/-- A record with an unrecognised face value. -/
def rFaceX : Record := { emptyRecord with face := some "X" }

/-- The export example: department absent, title with an embedded quote
and newline. -/
def csvExampleRecord : Record :=
  { emptyRecord with id := some "E-1", title := some "A\"B\nC" }

/-! ### Helper lemmas -/

/-- The filter's per-record predicate agrees pointwise with the spec-side
conjunctive matcher once the search text is normalised. -/
theorem recordMatches_eq_specMatches (f st dp q : String) (d : Record) :
    recordMatches f st dp (jsTrim (jsToLower q)) d = specMatches f st dp q d := by
  simp only [recordMatches, specMatches]
  cases hf : (f == "") <;> cases hf2 : (d.face == some f) <;>
    cases hs : (st == "") <;> cases hs2 : (d.statusTag == some st) <;>
      cases hd : (dp == "") <;> cases hd2 : (d.dept == some dp) <;>
        cases hq : (jsTrim (jsToLower q) == "") <;>
          cases hq2 : strIncludes (haystack d) (jsTrim (jsToLower q)) <;>
            simp [hf, hf2, hs, hs2, hd, hd2, hq, hq2]

/-! ### C1: Filter Engine -/

/-- C1 counterexample: with the raw search text `" e-1"` (leading space),
`applyFilters` keeps the record with id `E-1` because the code trims the
search text, while the claim's characterisation (lower-cased search text
used as is, no trimming) rejects it. -/
theorem applyFilters_claim_counterexample :
    applyFilters [rE1] "" "" "" " e-1" = [rE1] ∧
    claimMatches "" "" "" " e-1" rE1 = false ∧
    List.filter (claimMatches "" "" "" " e-1") [rE1] = [] := by decide

/-- C1 (amended): for every record set and criteria, `applyFilters` returns
an order-preserving subsequence of the full set, containing exactly the
records where every non-empty exact criterion matches and, when the
lower-cased **and trimmed** search text is non-empty, that text is a
substring of the lower-cased space-joined concatenation of the record's
id, title, description, prior-year note and department (absent or empty
fields contributing nothing). -/
theorem applyFilters_subseq_exact (records : List Record) (f st dp q : String) :
    (applyFilters records f st dp q).Sublist records ∧
    applyFilters records f st dp q = records.filter (specMatches f st dp q) := by
  refine ⟨List.filter_sublist records, ?_⟩
  exact List.filter_congr (fun d _ => recordMatches_eq_specMatches f st dp q d)

/-! ### C7: summary AI-availability flag -/

/-- C7: the card's AI-availability flag is true iff `ai_suggestion` is
present with neither an error marker nor a parse-error marker; in
particular it is false when `ai_suggestion` is absent. -/
theorem hasAI_iff (d : Record) :
    (hasAI d = true ↔
      ∃ a, d.ai = some a ∧ a.error = false ∧ a.parse_error = false) ∧
    (d.ai = none → hasAI d = false) := by
  cases h : d.ai with
  | none => simp [hasAI, h]
  | some a =>
      refine ⟨?_, by simp [h]⟩
      simp [hasAI, h]

/-- Witness for C7 at a record with no `ai_suggestion`. -/
theorem hasAI_iff_witness :
    emptyRecord.ai = none ∧ hasAI emptyRecord = false :=
  ⟨rfl, (hasAI_iff emptyRecord).2 rfl⟩

/-! ### C8: Dataset Loader -/

/-- The regex-transliterated code pattern agrees with the claim-side
pattern (E/S/G, hyphen, one or more digits). -/
theorem isIndicatorCode_eq_claimCodePattern (s : String) :
    isIndicatorCode s = claimCodePattern s := by
  obtain ⟨cs⟩ := s
  cases cs with
  | nil => rfl
  | cons c rest =>
      cases rest with
      | nil => rfl
      | cons h rest2 =>
          by_cases hh : h = '-'
          · subst hh
            cases rest2 <;>
              simp [isIndicatorCode, claimCodePattern, Nat.succ_le_iff]
          · have hb : (h == '-') = false := beq_eq_false_iff_ne.mpr hh
            simp [isIndicatorCode, claimCodePattern, hh, hb]

/-- The loader's full predicate (truthy id, then the regex) agrees with
the claim-side predicate (id present and matching the pattern). -/
theorem loadPred_eq_claimIdOk (d : Record) :
    (match d.id with
     | none => false
     | some s => !(s == "") && isIndicatorCode s) = claimIdOk d := by
  cases h : d.id with
  | none => simp [claimIdOk, h]
  | some s =>
      simp only [claimIdOk, h, Option.isSome_some, Option.getD_some, Bool.true_and]
      rw [isIndicatorCode_eq_claimCodePattern]
      by_cases hs : s = ""
      · subst hs; rfl
      · simp [hs]

/-- C8: `loadData` keeps exactly the entries whose id is present and
matches the indicator code pattern (one letter from E/S/G, a hyphen, one
or more digits), in order; every other entry is discarded. -/
theorem loadData_exact (records : List Record) :
    loadData records = records.filter claimIdOk ∧
    (loadData records).Sublist records ∧
    ∀ d, (d ∈ loadData records ↔ d ∈ records ∧ claimIdOk d = true) := by
  have heq : loadData records = records.filter claimIdOk :=
    List.filter_congr (fun d _ => loadPred_eq_claimIdOk d)
  refine ⟨heq, ?_, fun d => ?_⟩
  · exact heq ▸ List.filter_sublist records
  · rw [heq]; exact List.mem_filter

/-! ### C10: stats AI count vs. card AI flag -/

/-- C10: the stats bar's AI count and the card's AI flag use different
predicates: the stats count includes every record whose `ai_suggestion`
is present without an error marker, even with a parse-error marker, so a
record with `ai_suggestion = \x7bparse_error: true\x7d` is counted by the
stats while its card shows no AI indicator. -/
theorem statsAI_vs_cardAI :
    (∀ (l : List Record) (d : Record), d ∈ l →
       (∃ a, d.ai = some a ∧ a.error = false) → d ∈ l.filter statsAIPred) ∧
    aiCount [rParseErr] = 1 ∧ statsAIPred rParseErr = true ∧
    hasAI rParseErr = false := by
  refine ⟨?_, by decide, by decide, by decide⟩
  rintro l d hm ⟨a, ha, he⟩
  exact List.mem_filter.mpr ⟨hm, by simp [statsAIPred, ha, he]⟩

/-- Witness for C10's universally quantified part at a concrete record. -/
theorem statsAI_vs_cardAI_witness :
    rParseErr ∈ [rParseErr] ∧ rParseErr ∈ [rParseErr].filter statsAIPred :=
  ⟨by decide, statsAI_vs_cardAI.1 [rParseErr] rParseErr (by decide)
    ⟨⟨false, true, none, none, none, none, none, none, none, none⟩, rfl, rfl⟩⟩

/-! ### C2: summary score badge -/

/-- Truthiness of a defaulted field equals truthiness of the field. -/
theorem not_jsOrD_empty_beq (o : Option String) :
    (!(jsOrD o "" == "")) = jsTruthy o := by
  cases o with
  | none => rfl
  | some s => by_cases hs : s = "" <;> simp [jsOrD, jsTruthy, hs]

/-- C2: the card's score badge follows the priority order: New status
shows `(新增)` regardless of score; otherwise a numeric score of 1 gives
the pass-styled `1分`, a numeric score of 0 gives the fail-styled `0分`,
otherwise a truthy score text gives a pass-styled 6-character truncation,
otherwise the neutral `na`/`--` placeholder.  In particular a New record
with score 0 displays `(新增)`, not `0分`. -/
theorem createCard_score_policy (d : Record) :
    (d.statusTag = some "New_2026" →
      (cardScore d).scoreDisplay = "(新增)" ∧ (cardScore d).scoreDisplay ≠ "0分") ∧
    (d.statusTag ≠ some "New_2026" →
      (d.scoreVal = some 1 → cardScore d = ⟨"pass", "1分"⟩) ∧
      (d.scoreVal ≠ some 1 → d.scoreVal = some 0 → cardScore d = ⟨"fail", "0分"⟩) ∧
      (d.scoreVal ≠ some 1 → d.scoreVal ≠ some 0 → jsTruthy d.scoreText = true →
        cardScore d = ⟨"pass", strTake (jsOrD d.scoreText "") 6⟩) ∧
      (d.scoreVal ≠ some 1 → d.scoreVal ≠ some 0 → jsTruthy d.scoreText = false →
        cardScore d = ⟨"na", "--"⟩)) := by
  constructor
  · intro h
    constructor
    · simp [cardScore, h]
    · simp [cardScore, h]
  · intro hnew
    have hb : (d.statusTag == some "New_2026") = false := beq_eq_false_iff_ne.mpr hnew
    refine ⟨fun h1 => ?_, fun h1 h0 => ?_, fun h1 h0 ht => ?_, fun h1 h0 ht => ?_⟩
    · simp [cardScore, hb, h1]
    · have hb1 : (d.scoreVal == some 1) = false := beq_eq_false_iff_ne.mpr h1
      simp [cardScore, hb, hb1, h0]
    · have hb1 : (d.scoreVal == some 1) = false := beq_eq_false_iff_ne.mpr h1
      have hb0 : (d.scoreVal == some 0) = false := beq_eq_false_iff_ne.mpr h0
      have htt : (!(jsOrD d.scoreText "" == "")) = true := by
        rw [not_jsOrD_empty_beq]; exact ht
      simp [cardScore, hb, hb1, hb0, htt]
    · have hb1 : (d.scoreVal == some 1) = false := beq_eq_false_iff_ne.mpr h1
      have hb0 : (d.scoreVal == some 0) = false := beq_eq_false_iff_ne.mpr h0
      have htt : (!(jsOrD d.scoreText "" == "")) = false := by
        rw [not_jsOrD_empty_beq]; exact ht
      simp [cardScore, hb, hb1, hb0, htt]

/-- Witness for C2 at a New record with a numeric score of 0. -/
theorem createCard_score_policy_witness :
    rNewZero.statusTag = some "New_2026" ∧ rNewZero.scoreVal = some 0 ∧
    (cardScore rNewZero).scoreDisplay = "(新增)" ∧
    (cardScore rNewZero).scoreDisplay ≠ "0分" :=
  ⟨rfl, rfl, ((createCard_score_policy rNewZero).1 rfl).1,
    ((createCard_score_policy rNewZero).1 rfl).2⟩

/-! ### C3: detail AI branch -/

/-- C3 counterexample: an `ai_suggestion` whose raw-response marker is
present but which carries no error or parse-error marker is rendered by
the structured branch, not by the raw branch as the claim states. -/
theorem aiSection_claim_counterexample :
    jsTruthy aiRawOnly.raw_response = true ∧
    aiRawOnly.error = false ∧ aiRawOnly.parse_error = false ∧
    aiSection (some aiRawOnly)
      = AIView.structured ⟨"N/A", "N/A", ActionsView.text "N/A", "N/A", "N/A"⟩ ∧
    aiSection (some aiRawOnly) ≠ AIView.raw "xyz" := by decide

/-- C3 (amended): the AI part of the detail projection always takes
exactly one of three branches, checked in the code's priority order:
structured (with `N/A` defaults) when the suggestion is present with
neither error nor parse-error marker — even if raw text is also present;
otherwise raw text (falling back to a serialisation of the structure when
no truthy raw text exists) when raw text or a parse-error marker is
present; otherwise the placeholder, which covers both an absent
suggestion and an error marker without raw text.  It never omits the AI
section. -/
theorem aiSection_branches (ai? : Option AISuggestion) :
    (∀ a, ai? = some a → a.error = false → a.parse_error = false →
      aiSection ai? = AIView.structured (structuredView a)) ∧
    (∀ a, ai? = some a → (a.error = true ∨ a.parse_error = true) →
      (jsTruthy a.raw_response = true ∨ a.parse_error = true) →
      aiSection ai? = AIView.raw (jsOrD a.raw_response (serializeAI a))) ∧
    (ai? = none → aiSection ai? = AIView.placeholder) ∧
    (∀ a, ai? = some a → a.error = true → a.parse_error = false →
      jsTruthy a.raw_response = false → aiSection ai? = AIView.placeholder) ∧
    ((∃ v, aiSection ai? = AIView.structured v) ∨
     (∃ s, aiSection ai? = AIView.raw s) ∨
     aiSection ai? = AIView.placeholder) := by
  refine ⟨?_, ?_, ?_, ?_, ?_⟩
  · rintro a rfl he hp
    simp [aiSection, he, hp]
  · rintro a rfl hm hr
    have hcond : (!a.error && !a.parse_error) = false := by
      rcases hm with he | hp
      · simp [he]
      · simp [hp]
    have hor : (jsTruthy a.raw_response || a.parse_error) = true := by
      rcases hr with h | h <;> simp [h]
    simp [aiSection, hcond, hor]
  · rintro rfl; rfl
  · rintro a rfl he hp hr
    simp [aiSection, he, hp, hr]
  · cases h : aiSection ai? with
    | structured v => exact Or.inl ⟨v, rfl⟩
    | raw s => exact Or.inr (Or.inl ⟨s, rfl⟩)
    | placeholder => exact Or.inr (Or.inr rfl)

/-- Witness for C3 (amended) at the spec's example
`\x7bparse_error: true, raw_response: "xyz"\x7d`: the raw text is rendered
verbatim. -/
theorem aiSection_branches_witness :
    aiPE.parse_error = true ∧ aiSection (some aiPE) = AIView.raw "xyz" := by
  refine ⟨rfl, ?_⟩
  have h := (aiSection_branches (some aiPE)).2.1 aiPE rfl (Or.inr rfl) (Or.inr rfl)
  simpa using h

/-! ### C5: face fallback -/

/-- C5 counterexample: a record with an absent face gets the governance
style class on its card and the governance long-label in the modal, but
the table row's face label falls back to the empty string, not to the
governance label `治理`. -/
theorem face_fallback_counterexample :
    emptyRecord.face = none ∧
    faceClass emptyRecord = "gov" ∧
    faceLong emptyRecord = "公司治理面 (G)" ∧
    faceLabel emptyRecord = "" ∧
    faceLabel emptyRecord ≠ "治理" := by decide

/-- C5 (amended): an absent or unrecognised face is tolerated in every
view; the card's style class and the modal's long-label fall back to the
governance rendering, while the table row's label falls back to the raw
stored value (the empty string when face is absent), rendering `治理` only
for the literal value G. -/
theorem face_fallback_amended (d : Record)
    (hE : d.face ≠ some "E") (hS : d.face ≠ some "S") :
    faceClass d = "gov" ∧ faceLong d = "公司治理面 (G)" ∧
    faceLabel d = (if d.face == some "G" then "治理" else (d.face).getD "") := by
  have hbE : (d.face == some "E") = false := beq_eq_false_iff_ne.mpr hE
  have hbS : (d.face == some "S") = false := beq_eq_false_iff_ne.mpr hS
  cases h : d.face with
  | none => refine ⟨?_, ?_, ?_⟩ <;> simp [faceClass, faceLong, faceLabel, h]
  | some s =>
      have hsE : s ≠ "E" := fun e => hE (by rw [h, e])
      have hsS : s ≠ "S" := fun e => hS (by rw [h, e])
      refine ⟨?_, ?_, ?_⟩
      · simp [faceClass, h, hsE, hsS]
      · simp [faceLong, h, hsE, hsS]
      · by_cases hsG : s = "G"
        · subst hsG; simp [faceLabel, h]
        · simp [faceLabel, h, hsE, hsS, hsG]

/-- Witness for C5 (amended) at a record with the unrecognised face X. -/
theorem face_fallback_amended_witness :
    rFaceX.face = some "X" ∧
    faceClass rFaceX = "gov" ∧ faceLong rFaceX = "公司治理面 (G)" ∧
    faceLabel rFaceX = "X" := by
  have h := face_fallback_amended rFaceX (by decide) (by decide)
  exact ⟨rfl, h.1, h.2.1, by simpa using h.2.2⟩

/-! ### C6: CSV export -/

/-- Concatenation of a list of strings (used to describe the row block). -/
def concatAll : List String → String
  | [] => ""
  | r :: rest => r ++ concatAll rest

/-- Claim-side single-pass escaping: quotes doubled and newlines replaced
by a space, described simultaneously as in the spec. -/
def specEscapeChars : List Char → List Char
  | [] => []
  | c :: cs =>
      if c = '"' then '"' :: '"' :: specEscapeChars cs
      else if c = '\n' then ' ' :: specEscapeChars cs
      else c :: specEscapeChars cs

/-- Claim-side cell escaping as one pass over the characters. -/
def specEscape (s : String) : String :=
  String.mk (specEscapeChars s.data)

/-- The code's two sequential replacements equal the claim's single
simultaneous description of the escaping. -/
theorem csvEscape_eq_specEscape (s : String) : csvEscape s = specEscape s := by
  obtain ⟨cs⟩ := s
  simp only [csvEscape, specEscape]
  congr 1
  induction cs with
  | nil => rfl
  | cons c cs ih =>
      by_cases hq : c = '"'
      · subst hq
        simp [doubleQuotes, nlToSpace, specEscapeChars, ih]
      · by_cases hn : c = '\n'
        · subst hn
          simp [doubleQuotes, nlToSpace, specEscapeChars, hq, ih]
        · simp [doubleQuotes, nlToSpace, specEscapeChars, hq, hn, ih]

/-- Unrolling `exportCSV`'s fold: the output is the initial header block
followed by each row with its newline. -/
theorem foldl_rows_eq (l : List Record) : ∀ init : String,
    l.foldl (fun csv d => csv ++ csvRow d ++ "\n") init
      = init ++ concatAll (l.map (fun d => csvRow d ++ "\n")) := by
  induction l with
  | nil => intro init; simp [concatAll, String.append_empty]
  | cons d t ih =>
      intro init
      simp only [List.foldl_cons, List.map_cons, concatAll]
      rw [ih]
      simp [String.append_assoc]

/-- Newline-joining a head and rows, then appending a final newline, is
the head block followed by each row with its newline. -/
theorem joinWith_newline_concat : ∀ (rows : List String) (h : String),
    joinWith "\n" (h :: rows) ++ "\n"
      = h ++ "\n" ++ concatAll (rows.map (fun r => r ++ "\n")) := by
  intro rows
  induction rows with
  | nil => intro h; simp [joinWith, concatAll, String.append_empty]
  | cons r rest ih =>
      intro h
      simp only [joinWith, List.map_cons, concatAll]
      rw [String.append_assoc, ih r]

/-- C6: the CSV export is the byte-order marker, the fixed 8-column
header row, then one row per filtered record in order, all joined by
newlines with a final trailing newline; each cell is the field value with
absent fields as the empty string, quotes doubled, newlines replaced by a
space, wrapped in quotes.  The export example of the claim (department
absent; title with an embedded quote and newline) is evaluated
explicitly. -/
theorem exportCSV_format (l : List Record) :
    exportCSV l = "﻿"
        ++ (joinWith "\n" (joinWith "," csvHeaders :: l.map csvRow) ++ "\n") ∧
    (∀ s, csvEscape s = specEscape s) ∧
    csvRow csvExampleRecord
      = "\"E-1\",\"\",\"\",\"A\"\"B C\",\"\",\"\",\"\",\"\"" ∧
    exportCSV [csvExampleRecord]
      = "﻿編號,狀態標記,構面,評鑑指標,題型,114_自評得分,114_相關負責部門,114_自評來源及說明\n\"E-1\",\"\",\"\",\"A\"\"B C\",\"\",\"\",\"\",\"\"\n" := by
  refine ⟨?_, csvEscape_eq_specEscape, by decide, by decide⟩
  unfold exportCSV
  rw [foldl_rows_eq, joinWith_newline_concat]
  simp [String.append_assoc, List.map_map, Function.comp_def]

/-! ### C9: board grouping is a partition -/

/-- Sums distribute over a pointwise sum of two maps. -/
theorem sum_map_add (f g : String → Nat) : ∀ ks : List String,
    (ks.map (fun k => f k + g k)).sum = (ks.map f).sum + (ks.map g).sum := by
  intro ks
  induction ks with
  | nil => rfl
  | cons k t ih =>
      simp only [List.map_cons, List.sum_cons, ih]
      omega

/-- An indicator for a key not in the list sums to 0. -/
theorem sum_indicator_zero (x : String) : ∀ ks : List String, x ∉ ks →
    (ks.map (fun k => if x = k then 1 else 0)).sum = 0 := by
  intro ks
  induction ks with
  | nil => intro _; rfl
  | cons k t ih =>
      intro h
      have hx : x ≠ k := fun e => h (List.mem_cons.mpr (Or.inl e))
      have ht : x ∉ t := fun e => h (List.mem_cons.mpr (Or.inr e))
      simp [hx, ih ht]

/-- An indicator for a key occurring in a duplicate-free list sums to 1. -/
theorem sum_indicator_one (x : String) : ∀ ks : List String, ks.Nodup → x ∈ ks →
    (ks.map (fun k => if x = k then 1 else 0)).sum = 1 := by
  intro ks
  induction ks with
  | nil => intro _ h; cases h
  | cons k t ih =>
      intro hnd hm
      rcases List.mem_cons.mp hm with h | h
      · subst h
        have hxt : x ∉ t := (List.nodup_cons.mp hnd).1
        simp [sum_indicator_zero x t hxt]
      · have hx : x ≠ k := fun e => (List.nodup_cons.mp hnd).1 (e ▸ h)
        simp [hx, ih (List.nodup_cons.mp hnd).2 h]

/-- With one counter per key of a duplicate-free covering key list, the
per-key counts sum to the length of the counted list. -/
theorem countP_sum_eq_length : ∀ (l : List Record) (ks : List String), ks.Nodup →
    (∀ d, d ∈ l → deptKey d ∈ ks) →
    (ks.map (fun k => List.countP (fun d => deptKey d == k) l)).sum = l.length := by
  intro l
  induction l with
  | nil => intro ks _ _; simp
  | cons d t ih =>
      intro ks hnd hcov
      have hcv : ∀ e, e ∈ t → deptKey e ∈ ks :=
        fun e he => hcov e (List.mem_cons.mpr (Or.inr he))
      have hdk : deptKey d ∈ ks := hcov d (List.mem_cons.mpr (Or.inl rfl))
      simp only [List.countP_cons, beq_iff_eq]
      rw [sum_map_add (fun k => List.countP (fun e => deptKey e == k) t)
            (fun k => if deptKey d = k then 1 else 0) ks]
      rw [ih ks hnd hcv, sum_indicator_one (deptKey d) ks hnd hdk]
      simp

/-- Membership in `insertKey`. -/
theorem mem_insertKey (ks : List String) (k' k : String) :
    k ∈ insertKey ks k' ↔ k ∈ ks ∨ k = k' := by
  unfold insertKey
  split
  · rename_i h
    constructor
    · exact Or.inl
    · rintro (h' | rfl)
      · exact h'
      · simpa using h
  · simp [List.mem_append]

/-- `insertKey` preserves freedom from duplicates. -/
theorem insertKey_nodup (ks : List String) (k' : String) (h : ks.Nodup) :
    (insertKey ks k').Nodup := by
  unfold insertKey
  split
  · exact h
  · rename_i hc
    have hk : k' ∉ ks := by
      intro hmem
      exact hc (by simpa using hmem)
    simp [List.nodup_append, h, hk]

/-- Membership in the key-accumulating fold. -/
theorem groupKeys_aux_mem : ∀ (l : List Record) (acc : List String) (k : String),
    (k ∈ l.foldl (fun ks d => insertKey ks (deptKey d)) acc) ↔
      (k ∈ acc ∨ ∃ d, d ∈ l ∧ deptKey d = k) := by
  intro l
  induction l with
  | nil => intro acc k; simp
  | cons d t ih =>
      intro acc k
      simp only [List.foldl_cons]
      rw [ih]
      rw [mem_insertKey]
      constructor
      · rintro ((h | h) | ⟨e, he, hk⟩)
        · exact Or.inl h
        · exact Or.inr ⟨d, List.mem_cons.mpr (Or.inl rfl), h.symm⟩
        · exact Or.inr ⟨e, List.mem_cons.mpr (Or.inr he), hk⟩
      · rintro (h | ⟨e, he, hk⟩)
        · exact Or.inl (Or.inl h)
        · rcases List.mem_cons.mp he with rfl | he'
          · exact Or.inl (Or.inr hk.symm)
          · exact Or.inr ⟨e, he', hk⟩

/-- The key-accumulating fold preserves freedom from duplicates. -/
theorem groupKeys_aux_nodup : ∀ (l : List Record) (acc : List String), acc.Nodup →
    (l.foldl (fun ks d => insertKey ks (deptKey d)) acc).Nodup := by
  intro l
  induction l with
  | nil => intro acc h; simpa using h
  | cons d t ih => intro acc h; exact ih _ (insertKey_nodup _ _ h)

/-- The board's group keys are free of duplicates. -/
theorem groupKeys_nodup (l : List Record) : (groupKeys l).Nodup :=
  groupKeys_aux_nodup l [] (by simp)

/-- A key is a group key exactly when some record maps to it. -/
theorem mem_groupKeys (l : List Record) (k : String) :
    k ∈ groupKeys l ↔ ∃ d, d ∈ l ∧ deptKey d = k := by
  unfold groupKeys
  rw [groupKeys_aux_mem]
  simp

/-- C9: the board grouping is a partition of the filtered set: the group
member counts sum to the filtered set's length, and every filtered record
belongs to exactly one group — the one keyed by its department, or the
unassigned sentinel bucket when the department is absent. -/
theorem renderKanban_partition (l : List Record) :
    ((groupKeys l).map (fun k => (groupItems l k).length)).sum = l.length ∧
    ∀ d, d ∈ l → ∃! k, k ∈ groupKeys l ∧ d ∈ groupItems l k := by
  constructor
  · have h1 : ∀ k, k ∈ groupKeys l →
        (groupItems l k).length = List.countP (fun d => deptKey d == k) l := by
      intro k _
      simp [groupItems, List.countP_eq_length_filter]
    rw [List.map_congr_left h1]
    exact countP_sum_eq_length l (groupKeys l) (groupKeys_nodup l)
      (fun d hd => (mem_groupKeys l (deptKey d)).mpr ⟨d, hd, rfl⟩)
  · intro d hd
    refine ⟨deptKey d,
      ⟨(mem_groupKeys l (deptKey d)).mpr ⟨d, hd, rfl⟩,
       List.mem_filter.mpr ⟨hd, by simp⟩⟩, ?_⟩
    rintro k ⟨_, hdk⟩
    exact (eq_of_beq ((List.mem_filter.mp hdk).2)).symm

/-- Witness for C9 at a concrete two-record set: the counts sum to 2 and
the department-carrying record lies in exactly one group. -/
theorem renderKanban_partition_witness :
    ((groupKeys [rFin, emptyRecord]).map
        (fun k => (groupItems [rFin, emptyRecord] k).length)).sum
      = (([rFin, emptyRecord] : List Record)).length ∧
    ∃! k, k ∈ groupKeys [rFin, emptyRecord] ∧
      rFin ∈ groupItems [rFin, emptyRecord] k :=
  ⟨(renderKanban_partition [rFin, emptyRecord]).1,
   (renderKanban_partition [rFin, emptyRecord]).2 rFin (by decide)⟩

/-! ### C4: kanban group order, sentinel last -/

/-- The comparator places the sentinel before `k` only when `k` is itself
the sentinel. -/
theorem deptLe_sentinel_left (baseLe : String → String → Bool) (k : String) :
    deptLe baseLe unassignedKey k = (k == unassignedKey) := by
  unfold deptLe
  by_cases h : k = unassignedKey
  · subst h; simp
  · simp [beq_eq_false_iff_ne.mpr h]

/-- Transitivity lifts from the base comparison to the sentinel-aware
comparator. -/
theorem deptLe_trans (baseLe : String → String → Bool)
    (ht : ∀ a b c, baseLe a b = true → baseLe b c = true → baseLe a c = true) :
    ∀ a b c, deptLe baseLe a b = true → deptLe baseLe b c = true →
      deptLe baseLe a c = true := by
  intro a b c hab hbc
  by_cases hc : c = unassignedKey
  · simp [deptLe, hc]
  · have hcb : (c == unassignedKey) = false := beq_eq_false_iff_ne.mpr hc
    by_cases hb : b = unassignedKey
    · have hbs : (b == unassignedKey) = true := by simp [hb]
      simp [deptLe, hcb, hbs] at hbc
    · have hbb : (b == unassignedKey) = false := beq_eq_false_iff_ne.mpr hb
      simp only [deptLe, hbb, hcb, Bool.false_eq_true, if_false] at hab hbc ⊢
      by_cases ha : a = unassignedKey
      · have has : (a == unassignedKey) = true := by simp [ha]
        simp [has] at hab
      · have haa : (a == unassignedKey) = false := beq_eq_false_iff_ne.mpr ha
        simp only [haa, Bool.false_eq_true, if_false] at hab ⊢
        exact ht a b c hab hbc

/-- Totality lifts from the base comparison to the sentinel-aware
comparator. -/
theorem deptLe_total (baseLe : String → String → Bool)
    (ht : ∀ a b, (baseLe a b || baseLe b a) = true) :
    ∀ a b, (deptLe baseLe a b || deptLe baseLe b a) = true := by
  intro a b
  by_cases hb : b = unassignedKey
  · simp [deptLe, hb]
  · by_cases ha : a = unassignedKey
    · simp [deptLe, ha]
    · have hbb : (b == unassignedKey) = false := beq_eq_false_iff_ne.mpr hb
      have haa : (a == unassignedKey) = false := beq_eq_false_iff_ne.mpr ha
      simp [deptLe, hbb, haa, ht a b]

/-- In a list sorted by the sentinel-aware comparator, if the sentinel
occurs at all it is the last element. -/
theorem sentinel_last_aux (baseLe : String → String → Bool) :
    ∀ l : List String, l.Pairwise (fun a b => deptLe baseLe a b = true) →
      unassignedKey ∈ l → l.getLast? = some unassignedKey := by
  intro l
  induction l with
  | nil => intro _ h; cases h
  | cons a t ih =>
      intro hp hm
      cases t with
      | nil =>
          rcases List.mem_cons.mp hm with h | h
          · simp [h]
          · cases h
      | cons b t2 =>
          rw [List.getLast?_cons_cons]
          have hp' := List.pairwise_cons.mp hp
          rcases List.mem_cons.mp hm with ha | hrest
          · subst ha
            have hx : deptLe baseLe unassignedKey b = true :=
              hp'.1 b (List.mem_cons.mpr (Or.inl rfl))
            rw [deptLe_sentinel_left] at hx
            have hb : b = unassignedKey := eq_of_beq hx
            exact ih hp'.2 (List.mem_cons.mpr (Or.inl hb.symm))
          · exact ih hp'.2 hrest

/-- C4: for any total transitive base comparison (abstracting the
locale-aware `localeCompare`), whenever the unassigned sentinel bucket is
among the group keys, the board's ordered key list ends with it, and the
remaining keys are mutually ordered by the base comparison. -/
theorem renderKanban_sentinel_last (baseLe : String → String → Bool)
    (htrans : ∀ a b c, baseLe a b = true → baseLe b c = true → baseLe a c = true)
    (htotal : ∀ a b, (baseLe a b || baseLe b a) = true)
    (l : List Record) (hmem : unassignedKey ∈ groupKeys l) :
    (sortedKeys baseLe l).getLast? = some unassignedKey ∧
    ((sortedKeys baseLe l).filter (fun k => !(k == unassignedKey))).Pairwise
      (fun a b => baseLe a b = true) := by
  have hp : (sortedKeys baseLe l).Pairwise (fun a b => deptLe baseLe a b = true) :=
    List.sorted_mergeSort (deptLe_trans baseLe htrans) (deptLe_total baseLe htotal)
      (groupKeys l)
  have hm : unassignedKey ∈ sortedKeys baseLe l :=
    ((List.mergeSort_perm (groupKeys l) (deptLe baseLe)).mem_iff).mpr hmem
  refine ⟨sentinel_last_aux baseLe _ hp hm, ?_⟩
  have hf := List.Pairwise.filter (fun k => !(k == unassignedKey)) hp
  refine List.Pairwise.imp_of_mem ?_ hf
  intro a b ha hb hab
  have ha' : a ≠ unassignedKey := by
    have := (List.mem_filter.mp ha).2
    simpa using this
  have hb' : b ≠ unassignedKey := by
    have := (List.mem_filter.mp hb).2
    simpa using this
  have hbb : (b == unassignedKey) = false := beq_eq_false_iff_ne.mpr hb'
  have haa : (a == unassignedKey) = false := beq_eq_false_iff_ne.mpr ha'
  rw [deptLe, hbb, haa] at hab
  simpa using hab

/-- A concrete decidable total order on strings, standing in for the
locale comparison in the witness. -/
def strLeDec (a b : String) : Bool := decide (a ≤ b)

/-- `strLeDec` is transitive. -/
theorem strLeDec_trans :
    ∀ a b c : String, strLeDec a b = true → strLeDec b c = true →
      strLeDec a c = true := by
  intro a b c hab hbc
  simp only [strLeDec, decide_eq_true_eq] at hab hbc ⊢
  exact le_trans hab hbc

/-- `strLeDec` is total. -/
theorem strLeDec_total : ∀ a b : String, (strLeDec a b || strLeDec b a) = true := by
  intro a b
  simp only [strLeDec, Bool.or_eq_true, decide_eq_true_eq]
  exact le_total a b

/-- Witness for C4 at a concrete two-record set whose groups are `財務`
and the sentinel bucket. -/
theorem renderKanban_sentinel_last_witness :
    unassignedKey ∈ groupKeys [rFin, emptyRecord] ∧
    (sortedKeys strLeDec [rFin, emptyRecord]).getLast? = some unassignedKey :=
  ⟨by decide,
   (renderKanban_sentinel_last strLeDec strLeDec_trans strLeDec_total
      [rFin, emptyRecord] (by decide)).1⟩

end EsgDashboard
